import Mathlib

/-!
Shallow embedding of the serdeval validation subsystem (pkg/validator):
format tags, validation results, per-format validators, content-based
format detection, filename-based detection, and auto-validation.

Go strings are modelled as `List Char`.  External parsing libraries
(JSON decoder, YAML decoder, ...) are modelled as abstract functions
`Str → Option Str` returning `none` on success and `some msg` on a parse
error with message `msg`; the Jupyter validator additionally needs the
key set of the decoded top-level JSON object, so its collaborator is
modelled as `Str → Except Str (List Str)`.
-/

namespace Serdeval

/-- Go strings as lists of characters. -/
abbrev Str := List Char

/-- Embedding of Go `unicode.IsSpace` on the Latin-1 range:
tab, newline, vertical tab, form feed, carriage return, space, NEL, NBSP.
(Unicode space characters beyond Latin-1 are not modelled.) -/
def isSpace (c : Char) : Bool :=
  c == ' ' || c == '\t' || c == '\n' || c == '\r' ||
  c == Char.ofNat 11 || c == Char.ofNat 12 || c == Char.ofNat 133 || c == Char.ofNat 160

/-- Embedding of Go `strings.TrimSpace`. -/
def trim (l : Str) : Str :=
  ((l.dropWhile isSpace).reverse.dropWhile isSpace).reverse

/-- Embedding of Go `strings.Split(s, "\n")`: split on newline characters;
`splitNl [] = [[]]` just as `strings.Split("", "\n") = [""]`. -/
def splitNl : Str → List Str
  | [] => [[]]
  | c :: cs =>
    if c == '\n' then [] :: splitNl cs
    else
      match splitNl cs with
      | [] => [[c]]
      | l :: ls => (c :: l) :: ls

/-- Embedding of Go `strings.ToUpper` (character-wise; ASCII mapping). -/
def upper (l : Str) : Str := l.map Char.toUpper

/-- Embedding of Go `strings.ToLower` (character-wise; ASCII mapping). -/
def lower (l : Str) : Str := l.map Char.toLower

/-- Embedding of Go `strings.Contains(s, sub)`. -/
def containsSub (s sub : Str) : Bool := s.tails.any (fun t => sub.isPrefixOf t)

/-- Membership of a single character in a string. -/
def containsChar (s : Str) (c : Char) : Bool := s.any (fun x => x == c)

/-- Embedding of Go `strings.Count(s, c)` for a single-character separator. -/
def countChar (s : Str) (c : Char) : Nat := s.count c

/-- Decimal rendering of a natural number, as used by `fmt.Sprintf("%d", n)`. -/
def natStr (n : Nat) : Str := (Nat.repr n).toList

/-- Embedding of `errorString`: empty string if the error is nil,
otherwise the error's message. -/
def errorString : Option Str → Str
  | none => []
  | some e => e

/-- Embedding of the `Format` string constants of the package
(the 14 concrete formats plus the `auto` and `unknown` sentinels). -/
inductive Format where
  | json
  | yaml
  | xml
  | toml
  | csv
  | graphql
  | ini
  | hcl
  | protobuf
  | markdown
  | jsonl
  | jupyter
  | requirements
  | dockerfile
  | auto
  | unknown
deriving DecidableEq, Repr

/-- The underlying string value of each `Format` constant. -/
def formatStr : Format → Str
  | Format.json => ("json".toList)
  | Format.yaml => ("yaml".toList)
  | Format.xml => ("xml".toList)
  | Format.toml => ("toml".toList)
  | Format.csv => ("csv".toList)
  | Format.graphql => ("graphql".toList)
  | Format.ini => ("ini".toList)
  | Format.hcl => ("hcl".toList)
  | Format.protobuf => ("protobuf".toList)
  | Format.markdown => ("markdown".toList)
  | Format.jsonl => ("jsonl".toList)
  | Format.jupyter => ("jupyter".toList)
  | Format.requirements => ("requirements".toList)
  | Format.dockerfile => ("dockerfile".toList)
  | Format.auto => ("auto".toList)
  | Format.unknown => ("unknown".toList)

/-- Embedding of the `Result` struct (the `FileName` field is never set by
the validation subsystem and is omitted). -/
structure Result where
  valid : Bool
  format : Format
  error : Str
deriving DecidableEq, Repr

/-- Embedding of `JSONValidator.Validate`: `json.Unmarshal` modelled by `p`. -/
def JSONValidator.Validate (p : Str → Option Str) (data : Str) : Result :=
  ⟨(p data).isNone, Format.json, errorString (p data)⟩

/-- Embedding of `YAMLValidator.Validate`: `yaml.Unmarshal` modelled by `p`. -/
def YAMLValidator.Validate (p : Str → Option Str) (data : Str) : Result :=
  ⟨(p data).isNone, Format.yaml, errorString (p data)⟩

/-- Embedding of `XMLValidator.Validate`: `xml.Unmarshal` modelled by `p`. -/
def XMLValidator.Validate (p : Str → Option Str) (data : Str) : Result :=
  ⟨(p data).isNone, Format.xml, errorString (p data)⟩

/-- Embedding of `TOMLValidator.Validate`: `toml.Unmarshal` modelled by `p`. -/
def TOMLValidator.Validate (p : Str → Option Str) (data : Str) : Result :=
  ⟨(p data).isNone, Format.toml, errorString (p data)⟩

/-- Embedding of `CSVValidator.Validate`: `csv.Reader.ReadAll` modelled by `p`. -/
def CSVValidator.Validate (p : Str → Option Str) (data : Str) : Result :=
  ⟨(p data).isNone, Format.csv, errorString (p data)⟩

/-- Embedding of `GraphQLValidator.Validate`: empty content is rejected before
the parser runs; otherwise `parser.Parse` is modelled by `p`. -/
def GraphQLValidator.Validate (p : Str → Option Str) (data : Str) : Result :=
  if data.isEmpty then
    ⟨false, Format.graphql, ("empty GraphQL content".toList)⟩
  else
    ⟨(p data).isNone, Format.graphql, errorString (p data)⟩

/-- Embedding of `INIValidator.Validate`: `ini.Load` modelled by `p`. -/
def INIValidator.Validate (p : Str → Option Str) (data : Str) : Result :=
  ⟨(p data).isNone, Format.ini, errorString (p data)⟩

/-- Embedding of `HCLValidator.Validate`: `hclsyntax.ParseConfig` diagnostics
modelled by `p`, where `some d` means `diags.HasErrors()` with `diags.Error() = d`. -/
def HCLValidator.Validate (p : Str → Option Str) (data : Str) : Result :=
  ⟨(p data).isNone, Format.hcl,
    match p data with
    | some d => d
    | none => []⟩

/-- Embedding of `ProtobufValidator.Validate`: `prototext.Unmarshal` modelled by `p`. -/
def ProtobufValidator.Validate (p : Str → Option Str) (data : Str) : Result :=
  ⟨(p data).isNone, Format.protobuf, errorString (p data)⟩

/-- Embedding of `MarkdownValidator.Validate`: `goldmark.Convert` modelled by `p`. -/
def MarkdownValidator.Validate (p : Str → Option Str) (data : Str) : Result :=
  ⟨(p data).isNone, Format.markdown, errorString (p data)⟩

/-- The error message of the JSON Lines validator for a failing line. -/
def jsonlMsg (n : Nat) (e : Str) : Str :=
  ("invalid JSON on line ".toList) ++ natStr n ++ (": ".toList) ++ e

/-- The line loop of `JSONLValidator.Validate`: `i` is the 0-based physical
index of the first line of `ls` in the newline split of the input. -/
def jsonlLoop (p : Str → Option Str) : List Str → Nat → Result
  | [], _ => ⟨true, Format.jsonl, []⟩
  | l :: rest, i =>
    if (trim l).isEmpty then jsonlLoop p rest (i + 1)
    else
      match p (trim l) with
      | some e => ⟨false, Format.jsonl, jsonlMsg (i + 1) e⟩
      | none => jsonlLoop p rest (i + 1)

/-- Embedding of `JSONLValidator.Validate`: empty input is valid; otherwise
split on newline, skip blank lines, and `json.Unmarshal` (modelled by `p`)
each remaining line. -/
def JSONLValidator.Validate (p : Str → Option Str) (data : Str) : Result :=
  if data.isEmpty then ⟨true, Format.jsonl, []⟩
  else jsonlLoop p (splitNl data) 0

/-- Embedding of `JupyterValidator.Validate`: `json.Unmarshal` into a generic
map is modelled by `op`, which returns the decoded object's key set on
success; then the keys `cells`, `metadata`, `nbformat` are required. -/
def JupyterValidator.Validate (op : Str → Except Str (List Str)) (data : Str) : Result :=
  match op data with
  | Except.error e => ⟨false, Format.jupyter, ("invalid JSON: ".toList) ++ e⟩
  | Except.ok keys =>
    if !(keys.contains ("cells".toList)) then
      ⟨false, Format.jupyter, ("missing required field: cells".toList)⟩
    else if !(keys.contains ("metadata".toList)) then
      ⟨false, Format.jupyter, ("missing required field: metadata".toList)⟩
    else if !(keys.contains ("nbformat".toList)) then
      ⟨false, Format.jupyter, ("missing required field: nbformat".toList)⟩
    else
      ⟨true, Format.jupyter, []⟩

/-- A character allowed to witness a package name in a requirements line:
Go `strings.ContainsAny(line, "a..zA..Z0..9_-")`. -/
def reqChar (c : Char) : Bool := c.isAlphanum || c == '_' || c == '-'

/-- The error message of the requirements validator for a failing line. -/
def reqMsg (n : Nat) (l : Str) : Str :=
  ("invalid requirement on line ".toList) ++ natStr n ++ (": ".toList) ++ l

/-- The line loop of `RequirementsValidator.Validate`. -/
def reqLoop : List Str → Nat → Result
  | [], _ => ⟨true, Format.requirements, []⟩
  | l :: rest, i =>
    if (trim l).isEmpty || (("#".toList).isPrefixOf (trim l)) then reqLoop rest (i + 1)
    else if !((trim l).any reqChar) then
      ⟨false, Format.requirements, reqMsg (i + 1) (trim l)⟩
    else reqLoop rest (i + 1)

/-- Embedding of `RequirementsValidator.Validate`. -/
def RequirementsValidator.Validate (data : Str) : Result :=
  reqLoop (splitNl data) 0

/-- The fixed Dockerfile instruction keyword set, in source order. -/
def dockerInstructions : List Str :=
  [("FROM".toList), ("RUN".toList), ("CMD".toList), ("LABEL".toList),
   ("EXPOSE".toList), ("ENV".toList), ("ADD".toList), ("COPY".toList),
   ("ENTRYPOINT".toList), ("VOLUME".toList), ("USER".toList), ("WORKDIR".toList),
   ("ARG".toList), ("ONBUILD".toList), ("STOPSIGNAL".toList), ("HEALTHCHECK".toList),
   ("SHELL".toList)]

/-- The error message of the Dockerfile validator for a failing line. -/
def dockerMsg (n : Nat) (l : Str) : Str :=
  ("invalid instruction on line ".toList) ++ natStr n ++ (": ".toList) ++ l

/-- The line loop of `DockerfileValidator.Validate`: `prev` is the raw previous
physical line (used for the `\`-continuation check), `i` the 0-based index,
`hasFrom` whether a `FROM ` instruction has been seen so far. -/
def dockerLoop : List Str → Str → Nat → Bool → Result
  | [], _, _, hasFrom =>
    if hasFrom then ⟨true, Format.dockerfile, []⟩
    else ⟨false, Format.dockerfile, ("missing required FROM instruction".toList)⟩
  | l :: rest, prev, i, hasFrom =>
    if (trim l).isEmpty || (("#".toList).isPrefixOf (trim l)) then
      dockerLoop rest l (i + 1) hasFrom
    else
      if decide (0 < i) && (("\\".toList).isSuffixOf prev) then
        dockerLoop rest l (i + 1)
          (hasFrom || (("FROM ".toList).isPrefixOf (upper (trim l))))
      else if !(dockerInstructions.any (fun ins =>
          ((ins ++ [' ']).isPrefixOf (upper (trim l))) || upper (trim l) == ins)) then
        ⟨false, Format.dockerfile, dockerMsg (i + 1) (trim l)⟩
      else
        dockerLoop rest l (i + 1)
          (hasFrom || (("FROM ".toList).isPrefixOf (upper (trim l))))

/-- Embedding of `DockerfileValidator.Validate`. -/
def DockerfileValidator.Validate (data : Str) : Result :=
  dockerLoop (splitNl data) [] 0 false

/-- The bundle of external parsing collaborators a validation run is
parameterized over: each `Str → Option Str` returns `none` on success and
`some msg` on failure; `jsonObj` decodes a top-level JSON object and returns
its key set (used by the Jupyter validator). -/
structure Parsers where
  json : Str → Option Str
  yaml : Str → Option Str
  xml : Str → Option Str
  toml : Str → Option Str
  csv : Str → Option Str
  graphql : Str → Option Str
  ini : Str → Option Str
  hcl : Str → Option Str
  protobuf : Str → Option Str
  markdown : Str → Option Str
  jsonObj : Str → Except Str (List Str)

/-- A constructed validator: its `Validate` behaviour and the format tag its
`Format()` method reports (the `baseValidator.format` field). -/
structure ValidatorV where
  validate : Str → Result
  format : Format

/-- Embedding of `ValidateString`: Go converts the string to `[]byte` and
calls `Validate`; on our character-list model the conversion is the identity. -/
def ValidatorV.validateString (v : ValidatorV) (s : Str) : Result := v.validate s

/-- Embedding of the `validatorMap` registry: the 14 concrete formats map to
their validator constructors; `auto` and `unknown` are absent. -/
def validatorMap (ps : Parsers) : Format → Option ValidatorV
  | Format.json => some ⟨JSONValidator.Validate ps.json, Format.json⟩
  | Format.yaml => some ⟨YAMLValidator.Validate ps.yaml, Format.yaml⟩
  | Format.xml => some ⟨XMLValidator.Validate ps.xml, Format.xml⟩
  | Format.toml => some ⟨TOMLValidator.Validate ps.toml, Format.toml⟩
  | Format.csv => some ⟨CSVValidator.Validate ps.csv, Format.csv⟩
  | Format.graphql => some ⟨GraphQLValidator.Validate ps.graphql, Format.graphql⟩
  | Format.ini => some ⟨INIValidator.Validate ps.ini, Format.ini⟩
  | Format.hcl => some ⟨HCLValidator.Validate ps.hcl, Format.hcl⟩
  | Format.protobuf => some ⟨ProtobufValidator.Validate ps.protobuf, Format.protobuf⟩
  | Format.markdown => some ⟨MarkdownValidator.Validate ps.markdown, Format.markdown⟩
  | Format.jsonl => some ⟨JSONLValidator.Validate ps.json, Format.jsonl⟩
  | Format.jupyter => some ⟨JupyterValidator.Validate ps.jsonObj, Format.jupyter⟩
  | Format.requirements => some ⟨RequirementsValidator.Validate, Format.requirements⟩
  | Format.dockerfile => some ⟨DockerfileValidator.Validate, Format.dockerfile⟩
  | Format.auto => none
  | Format.unknown => none

/-- Embedding of `NewValidator`: look the format up in the registry and fail
with an unsupported-format error on a miss. -/
def NewValidator (ps : Parsers) (f : Format) : Except Str ValidatorV :=
  match validatorMap ps f with
  | none => Except.error (("unsupported format: ".toList) ++ formatStr f)
  | some v => Except.ok v

/-- Embedding of `isJupyterNotebook`. -/
def isJupyterNotebook (trimmed : Str) : Bool :=
  (("\x7b".toList).isPrefixOf trimmed) &&
  containsSub trimmed ("\"cells\"".toList) &&
  containsSub trimmed ("\"metadata\"".toList) &&
  containsSub trimmed ("\"nbformat\"".toList)

/-- Embedding of `isJSONLine`. -/
def isJSONLine (line : Str) : Bool :=
  ((("\x7b".toList).isPrefixOf line) && (("\x7d".toList).isSuffixOf line)) ||
  ((("[".toList).isPrefixOf line) && (("]".toList).isSuffixOf line))

/-- The counting loop of `isJSONLines`: `n` is the number of qualifying
non-blank lines seen so far. -/
def isJSONLinesLoop : List Str → Nat → Bool
  | [], n => decide (1 < n)
  | l :: rest, n =>
    if (trim l).isEmpty then isJSONLinesLoop rest n
    else if !(isJSONLine (trim l)) then false
    else isJSONLinesLoop rest (n + 1)

/-- Embedding of `isJSONLines`. -/
def isJSONLines (lines : List Str) : Bool :=
  if lines.length ≤ 1 then false
  else isJSONLinesLoop lines 0

/-- Embedding of `isJSON`. -/
def isJSON (trimmed : Str) : Bool :=
  if trimmed.isEmpty then false
  else
    ((("\x7b".toList).isPrefixOf trimmed) && (("\x7d".toList).isSuffixOf trimmed)) ||
    ((("[".toList).isPrefixOf trimmed) && (("]".toList).isSuffixOf trimmed))

/-- Embedding of `detectJSONFamily`: Jupyter, then JSON Lines, then plain JSON. -/
def detectJSONFamily (trimmed : Str) (lines : List Str) : Format :=
  if isJupyterNotebook trimmed then Format.jupyter
  else if isJSONLines lines then Format.jsonl
  else if isJSON trimmed then Format.json
  else Format.unknown

/-- Embedding of `countPatterns`. -/
def countPatterns (text : Str) (patterns : List Str) : Nat :=
  patterns.countP (fun pat => containsSub text pat)

/-- Embedding of `isDockerfile` (argument is the uppercased trimmed text). -/
def isDockerfile (upperTrimmed : Str) : Bool :=
  containsSub upperTrimmed ("FROM ".toList) ||
  decide (3 ≤ countPatterns upperTrimmed
    [("FROM ".toList), ("RUN ".toList), ("CMD ".toList), ("EXPOSE ".toList),
     ("ENV ".toList), ("ADD ".toList), ("COPY ".toList), ("ENTRYPOINT ".toList),
     ("VOLUME ".toList), ("USER ".toList), ("WORKDIR ".toList), ("ARG ".toList)])

/-- Embedding of `isHCL`. -/
def isHCL (trimmed : Str) : Bool :=
  decide (0 < countPatterns trimmed
    [("resource ".toList), ("variable ".toList), ("provider ".toList),
     ("module ".toList), ("output ".toList), ("locals ".toList),
     ("terraform ".toList), ("data ".toList)]) &&
  containsSub trimmed ("=".toList) &&
  containsSub trimmed ("\"".toList) &&
  containsSub trimmed ("\x7b".toList)

/-- Embedding of `isGraphQL`. -/
def isGraphQL (trimmed : Str) : Bool :=
  if decide (countPatterns trimmed
      [("query ".toList), ("mutation ".toList), ("subscription ".toList),
       ("fragment ".toList), ("type ".toList), ("interface ".toList),
       ("enum ".toList), ("input ".toList), ("scalar ".toList),
       ("schema ".toList)] = 0) ||
     !(containsSub trimmed ("\x7b".toList)) || !(containsSub trimmed ("\x7d".toList)) then
    false
  else
    containsSub trimmed ("\x7b\n".toList) || containsSub trimmed ("\x7b ".toList) ||
    decide (2 ≤ countPatterns trimmed
      [("query ".toList), ("mutation ".toList), ("subscription ".toList),
       ("fragment ".toList), ("type ".toList), ("interface ".toList),
       ("enum ".toList), ("input ".toList), ("scalar ".toList),
       ("schema ".toList)])

/-- Embedding of `isProtobuf`. -/
def isProtobuf (trimmed : Str) : Bool :=
  (containsSub trimmed ("type_url:".toList) || containsSub trimmed ("value:".toList)) &&
  containsSub trimmed ("\"".toList)

/-- Embedding of `detectDeveloperFormats` (the `lines` argument is unused in
the source as well). -/
def detectDeveloperFormats (trimmed : Str) (_lines : List Str) : Format :=
  if isDockerfile (upper trimmed) then Format.dockerfile
  else if isHCL trimmed then Format.hcl
  else if isGraphQL trimmed then Format.graphql
  else if isProtobuf trimmed then Format.protobuf
  else Format.unknown

/-- Embedding of `detectCSV`. -/
def detectCSV (trimmed : Str) (lines : List Str) : Bool :=
  if !(containsChar trimmed ',') then false
  else if lines.length ≤ 1 then false
  else
    match lines with
    | [] => false
    | l0 :: rest =>
      if countChar l0 ',' = 0 then false
      else (rest.take 4).all (fun l => l.isEmpty || (countChar l ',' == countChar l0 ','))

/-- Embedding of `detectMarkdown`. -/
def detectMarkdown (trimmed : Str) (lines : List Str) : Bool :=
  match lines with
  | [] => false
  | l0 :: _ =>
    (("#".toList).isPrefixOf l0) ||
    containsSub trimmed ("```".toList) ||
    containsSub trimmed ("**".toList) ||
    containsSub trimmed ("~~".toList) ||
    (containsSub trimmed ("[".toList) && containsSub trimmed ("](".toList))

/-- Embedding of `detectRequirements`. -/
def detectRequirements (trimmed : Str) (lines : List Str) : Bool :=
  if !(containsSub trimmed ("==".toList)) && !(containsSub trimmed (">=".toList)) &&
     !(containsSub trimmed ("<=".toList)) && !(containsSub trimmed ("~=".toList)) then
    false
  else
    lines.any (fun l =>
      !(trim l).isEmpty && !(("#".toList).isPrefixOf (trim l)) &&
      (trim l).any Char.isLower)

/-- Embedding of `detectDataFormats`. -/
def detectDataFormats (trimmed : Str) (lines : List Str) : Format :=
  if detectCSV trimmed lines then Format.csv
  else if detectMarkdown trimmed lines then Format.markdown
  else if detectRequirements trimmed lines then Format.requirements
  else Format.unknown

/-- Embedding of `isXML`. -/
def isXML (trimmed : Str) : Bool :=
  (("<?xml".toList).isPrefixOf trimmed) ||
  ((("<".toList).isPrefixOf trimmed) && containsSub trimmed (">".toList))

/-- Embedding of `isINI`. -/
def isINI (trimmed : Str) (lines : List Str) : Bool :=
  if !(containsSub trimmed ("[".toList)) || !(containsSub trimmed ("]".toList)) then
    false
  else
    lines.any (fun l =>
      (("[".toList).isPrefixOf (trim l)) && (("]".toList).isSuffixOf (trim l)))

/-- Embedding of `isYAML`. -/
def isYAML (trimmed : Str) : Bool :=
  if containsSub trimmed ("---".toList) then true
  else if !(containsSub trimmed (":".toList)) || containsSub trimmed ("://".toList) then
    false
  else if containsSub trimmed ("type_url:".toList) || containsSub trimmed ("value:".toList) then
    false
  else
    containsSub trimmed (": ".toList) || ((":".toList).isSuffixOf trimmed)

/-- Embedding of `isTOML`. -/
def isTOML (trimmed : Str) : Bool :=
  if !(containsSub trimmed ("=".toList)) || containsSub trimmed (":".toList) then
    false
  else
    !(("\x7b".toList).isPrefixOf trimmed) &&
    !(("[".toList).isPrefixOf trimmed) &&
    !(("<".toList).isPrefixOf trimmed)

/-- Embedding of `detectConfigFormats`. -/
def detectConfigFormats (trimmed : Str) (lines : List Str) : Format :=
  if isXML trimmed then Format.xml
  else if isINI trimmed lines then Format.ini
  else if isYAML trimmed then Format.yaml
  else if isTOML trimmed then Format.toml
  else Format.unknown

/-- Embedding of `DetectFormat`: trim, reject empty input, then run the four
family detectors in cascade order. -/
def DetectFormat (data : Str) : Format :=
  if (trim data).isEmpty then Format.unknown
  else if detectJSONFamily (trim data) (splitNl (trim data)) ≠ Format.unknown then
    detectJSONFamily (trim data) (splitNl (trim data))
  else if detectDeveloperFormats (trim data) (splitNl (trim data)) ≠ Format.unknown then
    detectDeveloperFormats (trim data) (splitNl (trim data))
  else if detectDataFormats (trim data) (splitNl (trim data)) ≠ Format.unknown then
    detectDataFormats (trim data) (splitNl (trim data))
  else if detectConfigFormats (trim data) (splitNl (trim data)) ≠ Format.unknown then
    detectConfigFormats (trim data) (splitNl (trim data))
  else Format.unknown

/-- Embedding of the `extensionMap` table. -/
def extensionMap : List (Str × Format) :=
  [(("json".toList), Format.json),
   (("yaml".toList), Format.yaml),
   (("yml".toList), Format.yaml),
   (("xml".toList), Format.xml),
   (("toml".toList), Format.toml),
   (("csv".toList), Format.csv),
   (("graphql".toList), Format.graphql),
   (("gql".toList), Format.graphql),
   (("ini".toList), Format.ini),
   (("cfg".toList), Format.ini),
   (("conf".toList), Format.ini),
   (("hcl".toList), Format.hcl),
   (("tf".toList), Format.hcl),
   (("tfvars".toList), Format.hcl),
   (("pb".toList), Format.protobuf),
   (("proto".toList), Format.protobuf),
   (("textproto".toList), Format.protobuf),
   (("pbtxt".toList), Format.protobuf),
   (("md".toList), Format.markdown),
   (("markdown".toList), Format.markdown),
   (("mkd".toList), Format.markdown),
   (("mdwn".toList), Format.markdown),
   (("mdown".toList), Format.markdown),
   (("mdtxt".toList), Format.markdown),
   (("mdtext".toList), Format.markdown),
   (("jsonl".toList), Format.jsonl),
   (("ndjson".toList), Format.jsonl),
   (("jsonlines".toList), Format.jsonl),
   (("ipynb".toList), Format.jupyter),
   (("dockerfile".toList), Format.dockerfile),
   (("containerfile".toList), Format.dockerfile)]

/-- The text after the last occurrence of `c` in `l` (all of `l` when `c` is
absent), matching Go slicing at `strings.LastIndex + 1`. -/
def afterLast (c : Char) (l : Str) : Str :=
  (l.reverse.takeWhile (fun x => x != c)).reverse

/-- Embedding of `DetectFormatFromFilename`. -/
def DetectFormatFromFilename (filename : Str) : Format :=
  if (lower (afterLast '/' filename) == ("dockerfile".toList)) ||
     (("dockerfile.".toList).isPrefixOf (lower (afterLast '/' filename))) then
    Format.dockerfile
  else if !(containsChar filename '.') then Format.unknown
  else if (lower (afterLast '.' filename) == ("txt".toList)) &&
          containsSub (lower filename) ("requirements".toList) then
    Format.requirements
  else
    match extensionMap.lookup (lower (afterLast '.' filename)) with
    | some f => f
    | none => Format.unknown

/-- Embedding of `ValidateAuto`: detect, short-circuit on `unknown`, construct
the validator for the detected format and run it. -/
def ValidateAuto (ps : Parsers) (data : Str) : Result :=
  if DetectFormat data = Format.unknown then
    ⟨false, Format.unknown, ("unable to detect format".toList)⟩
  else
    match NewValidator ps (DetectFormat data) with
    | Except.error e => ⟨false, DetectFormat data, e⟩
    | Except.ok v => v.validate data

/-- A bundle of trivially accepting parsers, used to instantiate theorems at
concrete inputs. -/
def trivParsers : Parsers :=
  ⟨fun _ => none, fun _ => none, fun _ => none, fun _ => none, fun _ => none,
   fun _ => none, fun _ => none, fun _ => none, fun _ => none, fun _ => none,
   fun _ => Except.ok []⟩

theorem brace_nonempty {l : Str} (h : (("\x7b".toList).isPrefixOf l) = true) :
    l.isEmpty = false := by
  cases l with
  | nil => exact absurd h (by decide)
  | cons a as => rfl

/-- C2: a buffer whose trimmed text starts with `{` and contains the literal
substrings `"cells"`, `"metadata"` and `"nbformat"` is always detected as a
Jupyter notebook; since detection returns a single tag and
`Format.jupyter ≠ Format.json` and `Format.jupyter ≠ Format.jsonl`, such a
buffer is never classified as plain JSON or JSON Lines. -/
theorem detectFormat_jupyter_of (data : Str)
    (h1 : (("\x7b".toList).isPrefixOf (trim data)) = true)
    (h2 : containsSub (trim data) ("\"cells\"".toList) = true)
    (h3 : containsSub (trim data) ("\"metadata\"".toList) = true)
    (h4 : containsSub (trim data) ("\"nbformat\"".toList) = true) :
    DetectFormat data = Format.jupyter := by
  have hne : (trim data).isEmpty = false := brace_nonempty h1
  have hj : isJupyterNotebook (trim data) = true := by
    unfold isJupyterNotebook
    rw [h1, h2, h3, h4]
    rfl
  have hdjf : detectJSONFamily (trim data) (splitNl (trim data)) = Format.jupyter := by
    simp [detectJSONFamily, hj]
  simp [DetectFormat, hne, hdjf]

/-- Witness for C2 at the spec's example notebook content. -/
theorem detectFormat_jupyter_of_witness :
    DetectFormat (("\x7b\"cells\":[],\"metadata\":\x7b\x7d,\"nbformat\":4\x7d").toList) =
      Format.jupyter :=
  detectFormat_jupyter_of _ (by decide) (by decide) (by decide) (by decide)

/-- C3: whenever content detection yields `unknown`, `ValidateAuto` returns
exactly `valid = false`, `format = unknown`,
`error = "unable to detect format"`; the result does not depend on the
parser bundle `ps`, so no format-specific parse-check is invoked. -/
theorem validateAuto_unknown (ps : Parsers) (data : Str)
    (h : DetectFormat data = Format.unknown) :
    ValidateAuto ps data =
      ⟨false, Format.unknown, ("unable to detect format".toList)⟩ := by
  simp [ValidateAuto, h]

/-- Witness for C3 at the empty buffer. -/
theorem validateAuto_unknown_witness :
    ValidateAuto trivParsers [] =
      ⟨false, Format.unknown, ("unable to detect format".toList)⟩ :=
  validateAuto_unknown trivParsers [] (by decide)

/-- C4 counterexample: the GraphQL validator on the empty buffer, with a
parser that accepts every input, still returns `valid = false` with its own
synthesized message, so it neither invokes the parser nor passes the
parser's verdict through as the claim states. -/
theorem graphQLValidator_empty_not_pass_through :
    GraphQLValidator.Validate (fun _ => none) [] ≠
      ⟨true, Format.graphql, []⟩ := by
  decide

/-- C4 (amended): every validator for a format other than Jupyter,
JSON Lines, Requirements and Dockerfile returns exactly the external
parser's verdict with the parser's error message passed through unmodified,
except that the GraphQL validator does so only on non-empty input (on the
empty buffer it synthesizes "empty GraphQL content" without invoking the
parser). -/
theorem external_validators_pass_through (p : Str → Option Str) (data : Str) :
    JSONValidator.Validate p data =
      ⟨(p data).isNone, Format.json, errorString (p data)⟩ ∧
    YAMLValidator.Validate p data =
      ⟨(p data).isNone, Format.yaml, errorString (p data)⟩ ∧
    XMLValidator.Validate p data =
      ⟨(p data).isNone, Format.xml, errorString (p data)⟩ ∧
    TOMLValidator.Validate p data =
      ⟨(p data).isNone, Format.toml, errorString (p data)⟩ ∧
    CSVValidator.Validate p data =
      ⟨(p data).isNone, Format.csv, errorString (p data)⟩ ∧
    INIValidator.Validate p data =
      ⟨(p data).isNone, Format.ini, errorString (p data)⟩ ∧
    HCLValidator.Validate p data =
      ⟨(p data).isNone, Format.hcl, errorString (p data)⟩ ∧
    ProtobufValidator.Validate p data =
      ⟨(p data).isNone, Format.protobuf, errorString (p data)⟩ ∧
    MarkdownValidator.Validate p data =
      ⟨(p data).isNone, Format.markdown, errorString (p data)⟩ ∧
    (data ≠ [] → GraphQLValidator.Validate p data =
      ⟨(p data).isNone, Format.graphql, errorString (p data)⟩) := by
  refine ⟨rfl, rfl, rfl, rfl, rfl, rfl, ?_, rfl, rfl, ?_⟩
  · cases h : p data <;> simp [HCLValidator.Validate, errorString, h]
  · intro h
    have he : data.isEmpty = false := by
      cases data with
      | nil => exact absurd rfl h
      | cons a as => rfl
    simp [GraphQLValidator.Validate, he]

/-- Witness for C4's amended claim: a rejecting parser on a non-empty buffer
has its message surfaced verbatim by the GraphQL validator. -/
theorem external_validators_pass_through_witness :
    GraphQLValidator.Validate (fun _ => some ("x".toList)) ("a".toList) =
      ⟨false, Format.graphql, ("x".toList)⟩ :=
  (((external_validators_pass_through (fun _ => some ("x".toList))
      ("a".toList)).2.2.2.2.2.2.2.2.2) (by decide)).trans (by decide)

/-- C6: `NewValidator` fails with the unsupported-format error on `auto`,
`unknown` (the only tags outside the 14-entry registry), and succeeds on
each of the 14 registered tags with a validator whose `Format()` equals the
requested tag. -/
theorem newValidator_spec (ps : Parsers) (f : Format) :
    ((f = Format.auto ∨ f = Format.unknown) →
      NewValidator ps f =
        Except.error (("unsupported format: ".toList) ++ formatStr f)) ∧
    (f ≠ Format.auto → f ≠ Format.unknown →
      ∃ v, NewValidator ps f = Except.ok v ∧ v.format = f) := by
  cases f <;> simp [NewValidator, validatorMap]

/-- Witness for C6: rejection at `auto`, success at `json`. -/
theorem newValidator_spec_witness :
    NewValidator trivParsers Format.auto =
      Except.error (("unsupported format: ".toList) ++ formatStr Format.auto) ∧
    ∃ v, NewValidator trivParsers Format.json = Except.ok v ∧
      v.format = Format.json :=
  ⟨(newValidator_spec trivParsers Format.auto).1 (Or.inl rfl),
   (newValidator_spec trivParsers Format.json).2 (by decide) (by decide)⟩

theorem dockerLoop_noFrom (ls : List Str) (prev : Str) (i : Nat)
    (h : ∀ l ∈ ls, (("FROM ".toList).isPrefixOf (upper (trim l))) = false) :
    (dockerLoop ls prev i false).valid = false := by
  induction ls generalizing prev i with
  | nil => simp [dockerLoop]
  | cons l rest ih =>
    have hl := h l (by simp)
    have hrest : ∀ x ∈ rest, (("FROM ".toList).isPrefixOf (upper (trim x))) = false :=
      fun x hx => h x (by simp [hx])
    unfold dockerLoop
    rw [hl]
    simp only [Bool.or_false]
    split
    · exact ih l (i + 1) hrest
    · split
      · exact ih l (i + 1) hrest
      · split
        · rfl
        · exact ih l (i + 1) hrest

/-- C7: an input none of whose lines, trimmed and uppercased, starts with
`FROM ` is always rejected by the Dockerfile validator (including the empty
buffer and buffers of only comments, blanks or other valid instructions). -/
theorem dockerfileValidator_requires_from (data : Str)
    (h : ∀ l ∈ splitNl data, (("FROM ".toList).isPrefixOf (upper (trim l))) = false) :
    (DockerfileValidator.Validate data).valid = false :=
  dockerLoop_noFrom _ _ _ h

/-- Witness for C7: a buffer with only valid non-FROM instructions fails. -/
theorem dockerfileValidator_requires_from_witness :
    (DockerfileValidator.Validate (("RUN echo hi\n# comment\nWORKDIR /x").toList)).valid =
      false :=
  dockerfileValidator_requires_from _ (by decide)

/-- The first malformed line of a line list under parser `p`: skips blank
lines (after per-line trimming) and returns the 0-based physical index of
the first non-blank line rejected by `p`, together with `p`'s error message;
`i` is the index of the first line of the list. -/
def firstBad (p : Str → Option Str) : List Str → Nat → Option (Nat × Str)
  | [], _ => none
  | l :: rest, i =>
    if (trim l).isEmpty then firstBad p rest (i + 1)
    else
      match p (trim l) with
      | some e => some (i, e)
      | none => firstBad p rest (i + 1)

theorem jsonlLoop_eq_firstBad (p : Str → Option Str) (ls : List Str) (i : Nat) :
    jsonlLoop p ls i =
      match firstBad p ls i with
      | none => ⟨true, Format.jsonl, []⟩
      | some (j, e) => ⟨false, Format.jsonl, jsonlMsg (j + 1) e⟩ := by
  induction ls generalizing i with
  | nil => rfl
  | cons l rest ih =>
    by_cases hb : (trim l).isEmpty
    · simp [jsonlLoop, firstBad, hb, ih]
    · cases he : p (trim l) with
      | none => simp [jsonlLoop, firstBad, hb, he, ih]
      | some e => simp [jsonlLoop, firstBad, hb, he]

theorem firstBad_none_iff (p : Str → Option Str) (ls : List Str) (i : Nat) :
    firstBad p ls i = none ↔
      ∀ l ∈ ls, (trim l).isEmpty = false → p (trim l) = none := by
  induction ls generalizing i with
  | nil => simp [firstBad]
  | cons l rest ih =>
    unfold firstBad
    by_cases hb : (trim l).isEmpty
    · rw [if_pos hb, ih (i + 1), List.forall_mem_cons]
      have hh : (((trim l).isEmpty = false → p (trim l) = none)) ↔ True := by simp [hb]
      rw [hh, true_and]
    · have hbf : (trim l).isEmpty = false := by simpa using hb
      cases he : p (trim l) with
      | none =>
        rw [if_neg hb]
        simp only [he]
        rw [ih (i + 1), List.forall_mem_cons]
        have hh : (((trim l).isEmpty = false → p (trim l) = none)) ↔ True := by simp [he]
        rw [hh, true_and]
      | some e =>
        rw [if_neg hb]
        simp only [he]
        constructor
        · intro h
          exact absurd h (by simp)
        · intro h
          exact absurd (h l (List.mem_cons_self l rest) hbf) (by simp [he])

/-- C8: the JSON Lines validator splits the raw input on newline, skips
blank lines, is invalid exactly when some non-blank line fails the JSON
parser, and on failure reports the first malformed line's 1-based physical
position in the newline split together with the parser's own error
message; blank lines never cause failure. -/
theorem jsonlValidator_spec (p : Str → Option Str) (data : Str) :
    ((JSONLValidator.Validate p data).valid = false ↔
      ∃ l ∈ splitNl data, (trim l).isEmpty = false ∧ (p (trim l)).isSome = true) ∧
    (∀ i e, firstBad p (splitNl data) 0 = some (i, e) →
      JSONLValidator.Validate p data =
        ⟨false, Format.jsonl,
          ("invalid JSON on line ".toList) ++ natStr (i + 1) ++ (": ".toList) ++ e⟩) := by
  have hkey : JSONLValidator.Validate p data =
      match firstBad p (splitNl data) 0 with
      | none => ⟨true, Format.jsonl, []⟩
      | some (j, e) => ⟨false, Format.jsonl, jsonlMsg (j + 1) e⟩ := by
    unfold JSONLValidator.Validate
    by_cases hd : data.isEmpty
    · have hnil : data = [] := by
        cases data with
        | nil => rfl
        | cons a as => exact absurd hd (by simp)
      subst hnil
      rfl
    · rw [if_neg hd]
      exact jsonlLoop_eq_firstBad p (splitNl data) 0
  constructor
  · rw [hkey]
    cases hfb : firstBad p (splitNl data) 0 with
    | none =>
      simp only [hfb]
      rw [firstBad_none_iff] at hfb
      apply iff_of_false
      · simp
      · rintro ⟨l, hl, hnb, hs⟩
        rw [hfb l hl hnb] at hs
        simp at hs
    | some je =>
      obtain ⟨j, e⟩ := je
      simp only [hfb]
      have hne : firstBad p (splitNl data) 0 ≠ none := by simp [hfb]
      rw [Ne, firstBad_none_iff] at hne
      push_neg at hne
      obtain ⟨l, hl, hnb, hp⟩ := hne
      exact iff_of_true trivial ⟨l, hl, hnb, Option.isSome_iff_ne_none.mpr hp⟩
  · intro i e hie
    rw [hkey, hie]
    rfl

/-- A parser accepting everything except the line `bad`, used to instantiate
the JSON Lines theorems. -/
def badParser : Str → Option Str :=
  fun l => if l == ("bad".toList) then some ("oops".toList) else none

/-- Witness for C8: the second physical line is malformed and is reported
with its 1-based position and the parser's message. -/
theorem jsonlValidator_spec_witness :
    (JSONLValidator.Validate badParser (("\x7b\x7d\nbad").toList)).valid = false ∧
    JSONLValidator.Validate badParser (("\x7b\x7d\nbad").toList) =
      ⟨false, Format.jsonl,
        ("invalid JSON on line ".toList) ++ natStr 2 ++ (": ".toList) ++ ("oops".toList)⟩ :=
  ⟨(jsonlValidator_spec badParser _).1.mpr (by decide),
   (jsonlValidator_spec badParser _).2 1 ("oops".toList) (by decide)⟩

theorem isJSONLinesLoop_iff (ls : List Str) (n : Nat) :
    isJSONLinesLoop ls n = true ↔
      ((∀ l ∈ ls, (trim l).isEmpty = false → isJSONLine (trim l) = true) ∧
       1 < n + ls.countP (fun l => !(trim l).isEmpty)) := by
  induction ls generalizing n with
  | nil => simp [isJSONLinesLoop]
  | cons l rest ih =>
    unfold isJSONLinesLoop
    rw [List.countP_cons, List.forall_mem_cons]
    by_cases hb : (trim l).isEmpty
    · rw [if_pos hb, ih n]
      have hh : (((trim l).isEmpty = false → isJSONLine (trim l) = true)) ↔ True := by
        simp [hb]
      rw [hh, true_and]
      have hc : (if !(trim l).isEmpty then 1 else 0) = 0 := by simp [hb]
      rw [hc, Nat.add_zero]
    · have hbf : (trim l).isEmpty = false := by simpa using hb
      have hc : (if !(trim l).isEmpty then 1 else 0) = 1 := by simp [hbf]
      rw [if_neg hb, hc]
      by_cases hj : isJSONLine (trim l)
      · rw [if_neg (by simp [hj]), ih (n + 1)]
        have hh : (((trim l).isEmpty = false → isJSONLine (trim l) = true)) ↔ True := by
          simp [hj]
        rw [hh, true_and]
        constructor
        · rintro ⟨ha, hn⟩
          exact ⟨ha, by omega⟩
        · rintro ⟨ha, hn⟩
          exact ⟨ha, by omega⟩
      · rw [if_pos (by simp [hj])]
        constructor
        · intro h
          exact absurd h (by simp)
        · rintro ⟨⟨hhead, _⟩, _⟩
          exact absurd (hhead hbf) hj

theorem isJSONLines_iff (ls : List Str) :
    isJSONLines ls = true ↔
      (1 < ls.length ∧
       (∀ l ∈ ls, (trim l).isEmpty = false → isJSONLine (trim l) = true) ∧
       1 < ls.countP (fun l => !(trim l).isEmpty)) := by
  unfold isJSONLines
  by_cases h : ls.length ≤ 1
  · rw [if_pos h]
    constructor
    · intro hh
      exact absurd hh (by simp)
    · rintro ⟨hlen, _⟩
      omega
  · rw [if_neg h, isJSONLinesLoop_iff, Nat.zero_add]
    have hlen : 1 < ls.length := by omega
    constructor
    · rintro ⟨ha, hc⟩
      exact ⟨hlen, ha, hc⟩
    · rintro ⟨_, ha, hc⟩
      exact ⟨ha, hc⟩

theorem detectJSONFamily_jsonl_iff (t : Str) (ls : List Str)
    (h : isJupyterNotebook t = false) :
    detectJSONFamily t ls = Format.jsonl ↔ isJSONLines ls = true := by
  unfold detectJSONFamily
  rw [h]
  by_cases hl : isJSONLines ls
  · simp [hl]
  · have hlf : isJSONLines ls = false := by simpa using hl
    rw [hlf]
    split_ifs <;> simp [hlf]

theorem detectDeveloperFormats_mem (t : Str) (ls : List Str) :
    detectDeveloperFormats t ls ∈
      [Format.dockerfile, Format.hcl, Format.graphql, Format.protobuf, Format.unknown] := by
  unfold detectDeveloperFormats
  split_ifs <;> simp

theorem detectDataFormats_mem (t : Str) (ls : List Str) :
    detectDataFormats t ls ∈
      [Format.csv, Format.markdown, Format.requirements, Format.unknown] := by
  unfold detectDataFormats
  split_ifs <;> simp

theorem detectConfigFormats_mem (t : Str) (ls : List Str) :
    detectConfigFormats t ls ∈
      [Format.xml, Format.ini, Format.yaml, Format.toml, Format.unknown] := by
  unfold detectConfigFormats
  split_ifs <;> simp

theorem detectJSONFamily_mem (t : Str) (ls : List Str) :
    detectJSONFamily t ls ∈
      [Format.jupyter, Format.jsonl, Format.json, Format.unknown] := by
  unfold detectJSONFamily
  split_ifs <;> simp

/-- C1: given that the trimmed text is not a Jupyter notebook, detection
classifies a buffer as JSON Lines exactly when the trimmed text has more
than one line, every non-blank line (after per-line trimming) looks like a
complete JSON object or array, and strictly more than one such non-blank
qualifying line exists; otherwise JSON Lines is rejected and detection
falls through to the later families (which never yield JSON Lines). -/
theorem detectFormat_jsonl_iff (data : Str)
    (h : isJupyterNotebook (trim data) = false) :
    DetectFormat data = Format.jsonl ↔
      (1 < (splitNl (trim data)).length ∧
       (∀ l ∈ splitNl (trim data),
          (trim l).isEmpty = false → isJSONLine (trim l) = true) ∧
       1 < (splitNl (trim data)).countP (fun l => !(trim l).isEmpty)) := by
  rw [← isJSONLines_iff]
  unfold DetectFormat
  by_cases he : (trim data).isEmpty
  · have hnil : trim data = [] := by
      cases htd : trim data with
      | nil => rfl
      | cons a as => rw [htd] at he; exact absurd he (by simp)
    rw [if_pos he, hnil]
    constructor
    · intro hh
      exact absurd hh (by simp)
    · intro hh
      exact absurd hh (by decide)
  · rw [if_neg he]
    by_cases hl : isJSONLines (splitNl (trim data))
    · have hdjf : detectJSONFamily (trim data) (splitNl (trim data)) = Format.jsonl :=
        (detectJSONFamily_jsonl_iff _ _ h).mpr hl
      rw [if_pos (by simp [hdjf]), hdjf]
      simp [hl]
    · have hdjf : detectJSONFamily (trim data) (splitNl (trim data)) ≠ Format.jsonl :=
        fun hh => hl ((detectJSONFamily_jsonl_iff _ _ h).mp hh)
      have hlf : isJSONLines (splitNl (trim data)) = false := by simpa using hl
      rw [hlf]
      apply iff_of_false ?_ (by simp)
      split_ifs with h1 h2 h3 h4
      · exact hdjf
      · intro hh
        have hm := detectDeveloperFormats_mem (trim data) (splitNl (trim data))
        rw [hh] at hm
        simp at hm
      · intro hh
        have hm := detectDataFormats_mem (trim data) (splitNl (trim data))
        rw [hh] at hm
        simp at hm
      · intro hh
        have hm := detectConfigFormats_mem (trim data) (splitNl (trim data))
        rw [hh] at hm
        simp at hm
      · simp

/-- Witness for C1: two qualifying lines are detected as JSON Lines. -/
theorem detectFormat_jsonl_iff_witness :
    DetectFormat (("\x7b\"a\":1\x7d\n\x7b\"b\":2\x7d").toList) = Format.jsonl :=
  (detectFormat_jsonl_iff _ (by decide)).mpr (by decide)

theorem registered_ok (ps : Parsers) (f : Format)
    (h1 : f ≠ Format.auto) (h2 : f ≠ Format.unknown) :
    ∃ v, NewValidator ps f = Except.ok v := by
  cases f <;> first
    | exact ⟨_, rfl⟩
    | exact absurd rfl h1
    | exact absurd rfl h2

theorem detectFormat_ne_auto (data : Str) : DetectFormat data ≠ Format.auto := by
  unfold DetectFormat
  split_ifs
  · simp
  · intro hh
    have hm := detectJSONFamily_mem (trim data) (splitNl (trim data))
    rw [hh] at hm
    simp at hm
  · intro hh
    have hm := detectDeveloperFormats_mem (trim data) (splitNl (trim data))
    rw [hh] at hm
    simp at hm
  · intro hh
    have hm := detectDataFormats_mem (trim data) (splitNl (trim data))
    rw [hh] at hm
    simp at hm
  · intro hh
    have hm := detectConfigFormats_mem (trim data) (splitNl (trim data))
    rw [hh] at hm
    simp at hm
  · simp

/-- C5: content detection never yields `auto` (nor any tag outside the
registry), so for every buffer either detection yields `unknown` or the
detected tag has a registered validator; consequently `ValidateAuto` never
takes its unsupported-format error branch: when detection succeeds it
returns exactly the registered validator's verdict. -/
theorem detectFormat_registered (ps : Parsers) (data : Str) :
    DetectFormat data ≠ Format.auto ∧
    (DetectFormat data = Format.unknown ∨
      ∃ v, NewValidator ps (DetectFormat data) = Except.ok v ∧
        ValidateAuto ps data = v.validate data) := by
  refine ⟨detectFormat_ne_auto data, ?_⟩
  by_cases hu : DetectFormat data = Format.unknown
  · exact Or.inl hu
  · obtain ⟨v, hv⟩ := registered_ok ps _ (detectFormat_ne_auto data) hu
    refine Or.inr ⟨v, hv, ?_⟩
    unfold ValidateAuto
    rw [if_neg hu, hv]

theorem jsonlLoop_valid_error (p : Str → Option Str) (ls : List Str) (i : Nat) :
    (jsonlLoop p ls i).valid = true → (jsonlLoop p ls i).error = [] := by
  rw [jsonlLoop_eq_firstBad]
  cases hfb : firstBad p ls i with
  | none => simp
  | some je =>
    obtain ⟨j, e⟩ := je
    simp

theorem dockerLoop_valid_error (ls : List Str) :
    ∀ prev i hf, (dockerLoop ls prev i hf).valid = true →
      (dockerLoop ls prev i hf).error = [] := by
  induction ls with
  | nil =>
    intro prev i hf
    cases hf <;> simp [dockerLoop]
  | cons l rest ih =>
    intro prev i hf
    unfold dockerLoop
    split
    · exact ih l (i + 1) hf
    · split
      · exact ih l (i + 1) _
      · split
        · intro hh
          exact absurd hh (by simp)
        · exact ih l (i + 1) _

theorem reqLoop_valid_error (ls : List Str) :
    ∀ i, (reqLoop ls i).valid = true → (reqLoop ls i).error = [] := by
  induction ls with
  | nil =>
    intro i _
    rfl
  | cons l rest ih =>
    intro i
    unfold reqLoop
    split
    · exact ih (i + 1)
    · split
      · intro hh
        exact absurd hh (by simp)
      · exact ih (i + 1)

theorem validator_valid_error (ps : Parsers) (f : Format) (v : ValidatorV) (d : Str)
    (h : validatorMap ps f = some v) :
    (v.validate d).valid = true → (v.validate d).error = [] := by
  cases f with
  | json =>
    simp only [validatorMap, Option.some.injEq] at h
    subst h
    cases hp : ps.json d <;> simp [JSONValidator.Validate, errorString, hp]
  | yaml =>
    simp only [validatorMap, Option.some.injEq] at h
    subst h
    cases hp : ps.yaml d <;> simp [YAMLValidator.Validate, errorString, hp]
  | xml =>
    simp only [validatorMap, Option.some.injEq] at h
    subst h
    cases hp : ps.xml d <;> simp [XMLValidator.Validate, errorString, hp]
  | toml =>
    simp only [validatorMap, Option.some.injEq] at h
    subst h
    cases hp : ps.toml d <;> simp [TOMLValidator.Validate, errorString, hp]
  | csv =>
    simp only [validatorMap, Option.some.injEq] at h
    subst h
    cases hp : ps.csv d <;> simp [CSVValidator.Validate, errorString, hp]
  | graphql =>
    simp only [validatorMap, Option.some.injEq] at h
    subst h
    show (GraphQLValidator.Validate ps.graphql d).valid = true →
      (GraphQLValidator.Validate ps.graphql d).error = []
    unfold GraphQLValidator.Validate
    split_ifs
    · simp
    · cases hp : ps.graphql d <;> simp [errorString, hp]
  | ini =>
    simp only [validatorMap, Option.some.injEq] at h
    subst h
    cases hp : ps.ini d <;> simp [INIValidator.Validate, errorString, hp]
  | hcl =>
    simp only [validatorMap, Option.some.injEq] at h
    subst h
    cases hp : ps.hcl d <;> simp [HCLValidator.Validate, hp]
  | protobuf =>
    simp only [validatorMap, Option.some.injEq] at h
    subst h
    cases hp : ps.protobuf d <;> simp [ProtobufValidator.Validate, errorString, hp]
  | markdown =>
    simp only [validatorMap, Option.some.injEq] at h
    subst h
    cases hp : ps.markdown d <;> simp [MarkdownValidator.Validate, errorString, hp]
  | jsonl =>
    simp only [validatorMap, Option.some.injEq] at h
    subst h
    show (JSONLValidator.Validate ps.json d).valid = true →
      (JSONLValidator.Validate ps.json d).error = []
    unfold JSONLValidator.Validate
    split_ifs
    · intro _
      rfl
    · exact jsonlLoop_valid_error ps.json _ 0
  | jupyter =>
    simp only [validatorMap, Option.some.injEq] at h
    subst h
    show (JupyterValidator.Validate ps.jsonObj d).valid = true →
      (JupyterValidator.Validate ps.jsonObj d).error = []
    unfold JupyterValidator.Validate
    cases ho : ps.jsonObj d with
    | error e => simp [ho]
    | ok keys =>
      simp only [ho]
      split_ifs <;> simp
  | requirements =>
    simp only [validatorMap, Option.some.injEq] at h
    subst h
    exact reqLoop_valid_error _ 0
  | dockerfile =>
    simp only [validatorMap, Option.some.injEq] at h
    subst h
    exact dockerLoop_valid_error _ [] 0 false
  | auto => simp [validatorMap] at h
  | unknown => simp [validatorMap] at h

/-- C10: every outcome produced by a registered validator's `Validate` or
`ValidateString`, and every outcome of `ValidateAuto`, has an empty error
string whenever `valid` is `true` (equivalently, a non-empty error only
occurs together with `valid = false`). -/
theorem result_error_empty_when_valid (ps : Parsers) (f : Format) (v : ValidatorV)
    (data : Str) (h : validatorMap ps f = some v) :
    ((v.validate data).valid = true → (v.validate data).error = []) ∧
    ((v.validateString data).valid = true → (v.validateString data).error = []) ∧
    ((ValidateAuto ps data).valid = true → (ValidateAuto ps data).error = []) := by
  refine ⟨validator_valid_error ps f v data h,
    validator_valid_error ps f v data h, ?_⟩
  unfold ValidateAuto
  split_ifs with hu
  · simp
  · cases hnv : NewValidator ps (DetectFormat data) with
    | error e => simp
    | ok w =>
      have hw : validatorMap ps (DetectFormat data) = some w := by
        unfold NewValidator at hnv
        cases hvm : validatorMap ps (DetectFormat data) with
        | none =>
          rw [hvm] at hnv
          exact absurd hnv (by simp)
        | some u =>
          rw [hvm] at hnv
          simp only [Except.ok.injEq] at hnv
          rw [hnv]
      exact validator_valid_error ps _ w data hw

/-- Witness for C10: a successful auto-validation carries an empty error. -/
theorem result_error_empty_when_valid_witness :
    (ValidateAuto trivParsers (("\x7b\"a\":1\x7d").toList)).error = [] :=
  (result_error_empty_when_valid trivParsers Format.json
    ⟨JSONValidator.Validate trivParsers.json, Format.json⟩
    (("\x7b\"a\":1\x7d").toList) rfl).2.2 (by decide)

/-- C9: `DetectFormatFromFilename` follows this exact order: a last path
segment that lower-cases to `dockerfile` or starts with `dockerfile.` wins
immediately; otherwise a name without a dot is `unknown`; otherwise a
lower-cased extension `txt` on a name whose lower-casing contains
`requirements` yields the requirements tag; otherwise the extension is
looked up in the static extension table, with `unknown` on a miss. -/
theorem detectFormatFromFilename_order (name : Str) :
    (((lower (afterLast '/' name) == ("dockerfile".toList)) ||
        (("dockerfile.".toList).isPrefixOf (lower (afterLast '/' name)))) = true →
      DetectFormatFromFilename name = Format.dockerfile) ∧
    (((lower (afterLast '/' name) == ("dockerfile".toList)) ||
        (("dockerfile.".toList).isPrefixOf (lower (afterLast '/' name)))) = false →
      containsChar name '.' = false →
      DetectFormatFromFilename name = Format.unknown) ∧
    (((lower (afterLast '/' name) == ("dockerfile".toList)) ||
        (("dockerfile.".toList).isPrefixOf (lower (afterLast '/' name)))) = false →
      containsChar name '.' = true →
      ((lower (afterLast '.' name) == ("txt".toList)) &&
        containsSub (lower name) ("requirements".toList)) = true →
      DetectFormatFromFilename name = Format.requirements) ∧
    (((lower (afterLast '/' name) == ("dockerfile".toList)) ||
        (("dockerfile.".toList).isPrefixOf (lower (afterLast '/' name)))) = false →
      containsChar name '.' = true →
      ((lower (afterLast '.' name) == ("txt".toList)) &&
        containsSub (lower name) ("requirements".toList)) = false →
      DetectFormatFromFilename name =
        match extensionMap.lookup (lower (afterLast '.' name)) with
        | some f => f
        | none => Format.unknown) := by
  unfold DetectFormatFromFilename
  refine ⟨?_, ?_, ?_, ?_⟩
  · intro h1
    rw [if_pos h1]
  · intro h1 h2
    rw [if_neg (by rw [h1]; simp), if_pos (by rw [h2]; simp)]
  · intro h1 h2 h3
    rw [if_neg (by rw [h1]; simp), if_neg (by rw [h2]; simp), if_pos h3]
  · intro h1 h2 h3
    rw [if_neg (by rw [h1]; simp), if_neg (by rw [h2]; simp), if_neg (by rw [h3]; simp)]

/-- Witness for C9 at the spec's three filename examples. -/
theorem detectFormatFromFilename_order_witness :
    DetectFormatFromFilename (("Dockerfile.prod").toList) = Format.dockerfile ∧
    DetectFormatFromFilename (("requirements-dev.txt").toList) = Format.requirements ∧
    DetectFormatFromFilename (("x.unknownext").toList) = Format.unknown :=
  ⟨(detectFormatFromFilename_order _).1 (by decide),
   (detectFormatFromFilename_order _).2.2.1 (by decide) (by decide) (by decide),
   ((detectFormatFromFilename_order _).2.2.2 (by decide) (by decide) (by decide)).trans
     (by decide)⟩

end Serdeval
